import Mathlib

/-!
Verification development for the Consolation Wayland compositor.

Each definition is a shallow embedding of a function of the Rust source
(file and function named in its doc comment); theorems settle the claims
of the specification against these definitions.
-/

namespace Consolation

/-! ### Rectangles

`QRect` mirrors `smithay::utils::Rectangle` with the `f64` coordinate
arithmetic of `drawing.rs` embedded over `ℚ` (the source casts `i32`
sizes to `f64` and performs exact divisions and multiplications on them).
-/

@[ext]
structure QRect where
  x : ℚ
  y : ℚ
  w : ℚ
  h : ℚ
  deriving DecidableEq, Repr

/-- Embeds the destination-rectangle computation of `draw_surface_tree`
(`src/drawing.rs`, the `if let Some(output_rect) = output` branch):
given the output rectangle, the bounding box of the parent window, the
node location and the buffer dimensions, it picks a uniform scale from
the aspect-ratio comparison and letterboxes on the slack axis. -/
def destRectFor (output_rect bbox : QRect) (location : ℚ × ℚ) (dim : ℚ × ℚ) : QRect :=
  let screen_aspect := output_rect.w / output_rect.h
  let window_aspect := bbox.w / bbox.h
  let scale : ℚ :=
    if screen_aspect = window_aspect then output_rect.w / bbox.w
    else if screen_aspect < window_aspect then output_rect.w / bbox.w
    else output_rect.h / bbox.h
  let our_left := output_rect.x + (location.1 - bbox.x) * scale
  let our_top := output_rect.y + (location.2 - bbox.y) * scale
  let our_width := dim.1 * scale
  let our_height := dim.2 * scale
  let window_width := bbox.w * scale
  let window_height := bbox.h * scale
  let screen_offset_y := if screen_aspect < window_aspect then (output_rect.h - window_height) / 2 else 0
  let screen_offset_x := if screen_aspect < window_aspect then 0 else (output_rect.w - window_width) / 2
  ⟨screen_offset_x + our_left, screen_offset_y + our_top, our_width, our_height⟩

/-- Embeds the glyph atlas cell computation of `draw_string`
(`src/drawing.rs`): `let y = (letter - 2) / 26u8; let x = (letter - 2) % 26u8;`
on an unsigned byte.  Subtraction below 2 underflows (a panic in the
source build), embedded as `none`. -/
def glyph_cell (letter : ℕ) : Option (ℕ × ℕ) :=
  if letter < 2 then none
  else some ((letter - 2) / 26, (letter - 2) % 26)

/-- Embeds the glyph loop of `draw_string` (`src/drawing.rs`): each byte of
the string is mapped to its atlas cell `(y, x)`; the whole call fails as
soon as one byte underflows. -/
def draw_string : List ℕ → Option (List (ℕ × ℕ))
  | [] => some []
  | b :: rest =>
    match glyph_cell b with
    | none => none
    | some c => (draw_string rest).map (fun cs => c :: cs)

/-- C1: in Single mode, for a window with bounding box `B` drawn onto
output rectangle `O`, the emitted rectangle has size `B.size` scaled by
the uniform factor `min (O.w/B.w) (O.h/B.h)` and is centered: its corner
is `O.loc` plus half the slack on each axis; the scaled size preserves
the aspect ratio of `B`. -/
theorem single_mode_layout (O B : QRect)
    (hBw : 0 < B.w) (hBh : 0 < B.h) (hOw : 0 < O.w) (hOh : 0 < O.h) :
    destRectFor O B (B.x, B.y) (B.w, B.h) =
      ⟨O.x + (O.w - B.w * min (O.w / B.w) (O.h / B.h)) / 2,
       O.y + (O.h - B.h * min (O.w / B.w) (O.h / B.h)) / 2,
       B.w * min (O.w / B.w) (O.h / B.h),
       B.h * min (O.w / B.w) (O.h / B.h)⟩ ∧
    B.w * min (O.w / B.w) (O.h / B.h) / (B.h * min (O.w / B.w) (O.h / B.h)) = B.w / B.h := by
  have hBw0 : B.w ≠ 0 := ne_of_gt hBw
  have hBh0 : B.h ≠ 0 := ne_of_gt hBh
  have hOh0 : O.h ≠ 0 := ne_of_gt hOh
  have hmin : 0 < min (O.w / B.w) (O.h / B.h) :=
    lt_min (div_pos hOw hBw) (div_pos hOh hBh)
  constructor
  · rcases lt_trichotomy (O.w / O.h) (B.w / B.h) with hlt | heq | hgt
    · -- screen aspect strictly smaller: width-limited, vertical letterbox
      have hne : O.w / O.h ≠ B.w / B.h := ne_of_lt hlt
      have hmineq : min (O.w / B.w) (O.h / B.h) = O.w / B.w := by
        refine min_eq_left (le_of_lt ?_)
        rw [div_lt_div_iff₀ hBw hBh]
        have := (div_lt_div_iff₀ hOh hBh).mp hlt
        linarith
      simp only [destRectFor, if_neg hne, if_pos hlt, hmineq]
      refine QRect.ext ?_ ?_ ?_ ?_ <;> field_simp <;> ring
    · -- equal aspect ratios: both candidate scales agree
      have heqscale : O.w / B.w = O.h / B.h := by
        rw [div_eq_div_iff hOh0 hBh0] at heq
        rw [div_eq_div_iff hBw0 hBh0]
        linarith
      have hnlt : ¬ O.w / O.h < B.w / B.h := by rw [heq]; exact lt_irrefl _
      have hmineq : min (O.w / B.w) (O.h / B.h) = O.w / B.w := by
        rw [heqscale]; exact min_self _
      simp only [destRectFor, if_pos heq, if_neg hnlt, hmineq]
      refine QRect.ext ?_ ?_ ?_ ?_ <;> rw [heqscale] <;> field_simp <;> ring
    · -- screen aspect strictly larger: height-limited, horizontal pillarbox
      have hne : O.w / O.h ≠ B.w / B.h := ne_of_gt hgt
      have hnlt : ¬ O.w / O.h < B.w / B.h := not_lt_of_gt hgt
      have hmineq : min (O.w / B.w) (O.h / B.h) = O.h / B.h := by
        refine min_eq_right (le_of_lt ?_)
        rw [div_lt_div_iff₀ hBh hBw]
        have := (div_lt_div_iff₀ hBh hOh).mp hgt
        linarith
      simp only [destRectFor, if_neg hne, if_neg hnlt, hmineq]
      refine QRect.ext ?_ ?_ ?_ ?_ <;> field_simp <;> ring
  · have hs0 : min (O.w / B.w) (O.h / B.h) ≠ 0 := ne_of_gt hmin
    rw [mul_div_mul_comm, div_self hs0, mul_one]

/-- C1 witness: an 800×600 window on a 1920×1080 output is drawn with
scale `9/5 = 1.8`, size 1440×1080, at offset (240, 0). -/
theorem single_mode_layout_witness :
    destRectFor ⟨0, 0, 1920, 1080⟩ ⟨0, 0, 800, 600⟩ (0, 0) (800, 600) =
      ⟨240, 0, 1440, 1080⟩ ∧
    min ((1920 : ℚ) / 800) ((1080 : ℚ) / 600) = 9 / 5 := by
  have h := single_mode_layout ⟨0, 0, 1920, 1080⟩ ⟨0, 0, 800, 600⟩
    (by norm_num) (by norm_num) (by norm_num) (by norm_num)
  have hmin : min ((1920 : ℚ) / 800) ((1080 : ℚ) / 600) = 9 / 5 := by norm_num
  refine ⟨?_, hmin⟩
  rw [h.1]
  simp only [hmin]
  refine QRect.ext ?_ ?_ ?_ ?_ <;> norm_num

/-- C10: `draw_string` is total exactly on strings whose every byte is at
least 2, in which case each glyph cell is `((b - 2) / 26, (b - 2) % 26)`;
a byte 0 or 1 makes the unsigned subtraction underflow. -/
theorem draw_string_spec (s : List ℕ) :
    draw_string s =
      if ∀ b ∈ s, 2 ≤ b then some (s.map (fun b => ((b - 2) / 26, (b - 2) % 26)))
      else none := by
  induction s with
  | nil => simp [draw_string]
  | cons b rest ih =>
    by_cases hb : 2 ≤ b
    · have hcell : glyph_cell b = some ((b - 2) / 26, (b - 2) % 26) := by
        simp [glyph_cell, Nat.not_lt_of_le hb]
      by_cases hrest : ∀ x ∈ rest, 2 ≤ x
      · simp only [draw_string, hcell, ih, if_pos hrest, List.forall_mem_cons]
        rw [if_pos ⟨hb, hrest⟩]
        simp
      · simp only [draw_string, hcell, ih, if_neg hrest, List.forall_mem_cons]
        rw [if_neg (fun h => hrest h.2)]
        simp
    · have hcell : glyph_cell b = none := by
        simp [glyph_cell, Nat.lt_of_not_le hb]
      simp only [draw_string, hcell, List.forall_mem_cons]
      rw [if_neg (fun h => hb h.1)]

/-! ### Output configuration transactions (`src/shell/output_manager.rs`)

`Output`, `Mode`, `LogicalOutput` mirror the structs of the same names;
`HashMap<OutputId, Output>` transaction contents are embedded as
association lists keyed by the numeric output id. -/

inductive WlTransform
  | normal | r90 | r180 | r270 | flipped | flipped90 | flipped180 | flipped270
  deriving DecidableEq, Repr

structure OutputMode where
  width : ℕ
  height : ℕ
  refresh_rate : ℕ
  is_preferred : Bool
  deriving DecidableEq, Repr

structure LogicalOutput where
  x : ℤ
  y : ℤ
  width : ℕ
  height : ℕ
  scale : ℚ
  transform : WlTransform
  deriving DecidableEq, Repr

/-- Mirrors `output_manager::Output`: per-head configuration state. -/
structure OutputCfg where
  mode : Option OutputMode
  modes : List OutputMode
  current_mode : Option ℕ
  vrr_enabled : Bool
  name : String
  logical : Option LogicalOutput
  transform : WlTransform
  scale : Option ℚ
  off : Bool
  variable_refresh_rate : Bool
  make : String
  model : String
  physical_size : Option (ℕ × ℕ)
  deriving DecidableEq, Repr

/-- Mirrors `OutputConfigurationState`: a transaction is either still
collecting per-head entries or has been used by an Apply/Test. -/
inductive OutputConfigurationState
  | ongoing (cfg : List (ℕ × OutputCfg))
  | finished
  deriving DecidableEq, Repr

/-- Protocol-level answer of an Apply/Test request on a configuration
object: `noReply` embeds the silent `return` when the configuration
object is unknown to the manager. -/
inductive ConfReply
  | cancelled
  | failed
  | succeeded
  | alreadyUsedError
  | noReply
  deriving DecidableEq, Repr

/-- Outcome of one Apply/Test dispatch: the reply event, the
configuration object state afterwards, and the head set handed to
`apply_output_config` (`none` when no output state is mutated). -/
structure ConfOutcome where
  reply : ConfReply
  confState : Option OutputConfigurationState
  applied : Option (List OutputCfg)
  deriving DecidableEq, Repr

/-- Embeds `Request::Apply` of
`Dispatch<ZwlrOutputConfigurationV1, u32> for OutputManagementManagerState`:
a stale serial answers `cancelled` before the transaction state is even
touched; a used transaction posts the `AlreadyUsed` protocol error; a
transaction whose every head is off answers `failed`; otherwise the
collected heads are applied and the request succeeds. -/
def applyRequest (managerSerial confSerial : ℕ)
    (confState : Option OutputConfigurationState) : ConfOutcome :=
  let outdated := confSerial ≠ managerSerial
  if outdated then ⟨.cancelled, confState, none⟩
  else
    match confState with
    | none => ⟨.noReply, none, none⟩
    | some .finished => ⟨.alreadyUsedError, some .finished, none⟩
    | some (.ongoing new_config) =>
      let any_enabled := new_config.any (fun c => !c.2.off)
      if !any_enabled then ⟨.failed, some .finished, none⟩
      else ⟨.succeeded, some .finished, some (new_config.map Prod.snd)⟩

/-- Embeds `Request::Test` of the same dispatch: identical gating, but a
successful test never calls `apply_output_config`. -/
def testRequest (managerSerial confSerial : ℕ)
    (confState : Option OutputConfigurationState) : ConfOutcome :=
  let outdated := confSerial ≠ managerSerial
  if outdated then ⟨.cancelled, confState, none⟩
  else
    match confState with
    | none => ⟨.noReply, none, none⟩
    | some .finished => ⟨.alreadyUsedError, some .finished, none⟩
    | some (.ongoing new_config) =>
      let any_enabled := new_config.any (fun c => !c.2.off)
      if !any_enabled then ⟨.failed, some .finished, none⟩
      else ⟨.succeeded, some .finished, none⟩

/-- C3: a transaction with a serial older than the manager's answers
`cancelled` on both Apply and Test without touching any state; a live
transaction whose every configured head is disabled answers `failed` on
both and applies nothing; a configuration is applied only when the
serial is current, the transaction is still ongoing, and at least one
configured head is enabled. -/
theorem output_config_transaction (managerSerial confSerial : ℕ)
    (confState : Option OutputConfigurationState) :
    (confSerial < managerSerial →
      applyRequest managerSerial confSerial confState =
        ⟨.cancelled, confState, none⟩ ∧
      testRequest managerSerial confSerial confState =
        ⟨.cancelled, confState, none⟩) ∧
    (∀ cfg, confSerial = managerSerial →
      confState = some (.ongoing cfg) →
      (∀ c ∈ cfg, c.2.off = true) →
      applyRequest managerSerial confSerial confState =
        ⟨.failed, some .finished, none⟩ ∧
      testRequest managerSerial confSerial confState =
        ⟨.failed, some .finished, none⟩) ∧
    ((applyRequest managerSerial confSerial confState).applied.isSome →
      confSerial = managerSerial ∧
      ∃ cfg, confState = some (.ongoing cfg) ∧ ∃ c ∈ cfg, c.2.off = false) := by
  refine ⟨?_, ?_, ?_⟩
  · intro hlt
    have hne : confSerial ≠ managerSerial := ne_of_lt hlt
    constructor
    · simp [applyRequest, hne]
    · simp [testRequest, hne]
  · intro cfg heq hstate halloff
    subst heq
    subst hstate
    have hnone : cfg.any (fun c => !c.2.off) = false := by
      rw [List.any_eq_false]
      intro c hc
      simp [halloff c hc]
    constructor
    · simp [applyRequest, hnone]
    · simp [testRequest, hnone]
  · intro happ
    by_cases hne : confSerial = managerSerial
    · subst hne
      refine ⟨rfl, ?_⟩
      match hstate : confState with
      | none => simp [applyRequest] at happ
      | some .finished => simp [applyRequest] at happ
      | some (.ongoing cfg) =>
        by_cases hen : cfg.any (fun c => !c.2.off) = true
        · rcases List.any_eq_true.mp hen with ⟨c, hc, hoff⟩
          exact ⟨cfg, rfl, c, hc, by simpa using hoff⟩
        · simp [applyRequest, eq_false_of_ne_true hen] at happ
    · simp [applyRequest, hne] at happ

/-- A fully disabled head configuration, used by the C3 witness. -/
def disabledHead : OutputCfg where
  mode := none
  modes := []
  current_mode := none
  vrr_enabled := false
  name := "DP-1"
  logical := none
  transform := .normal
  scale := none
  off := true
  variable_refresh_rate := false
  make := ""
  model := ""
  physical_size := none

/-- C3 witness: with manager serial 4, a transaction created at serial 3
is cancelled, and a current all-disabled transaction fails. -/
theorem output_config_transaction_witness :
    (applyRequest 4 3 (some (.ongoing []))).reply = .cancelled ∧
    (applyRequest 4 4 (some (.ongoing [(0, disabledHead)]))).reply = .failed := by
  have h3 := output_config_transaction 4 3 (some (.ongoing []))
  have hc := (h3.1 (by norm_num)).1
  have h4 := output_config_transaction 4 4 (some (.ongoing [(0, disabledHead)]))
  have hf := (h4.2.1 _ rfl rfl (by decide)).1
  exact ⟨by rw [hc], by rw [hf]⟩

/-! ### Pointer button and keyboard focus (`src/input_handler.rs`) -/

/-- Seat and stack state read by `on_pointer_button` and
`update_keyboard_focus`: grab flags of the three capabilities (`touch`
is `none` when the seat has no touch capability, mirroring
`self.seat.get_touch()`), the keyboard focus, and `self.elements`, the
window stack with index 0 topmost. -/
structure SeatState where
  pointerGrabbed : Bool
  keyboardGrabbed : Bool
  inputMethodKeyboardGrabbed : Bool
  touchGrabbed : Option Bool
  keyboardFocus : Option ℕ
  elements : List ℕ
  deriving DecidableEq, Repr

/-- Events sent through the seat, in emission order. -/
inductive SeatEvent
  | setFocus (target : Option ℕ) (serial : ℕ)
  | button (button : ℕ) (pressed : Bool) (serial : ℕ)
  | frame
  deriving DecidableEq, Repr

/-- Embeds `update_keyboard_focus`: only when neither the pointer, nor
the keyboard (unless the input method holds the keyboard), nor touch is
grabbed, keyboard focus is set to the window at stack index 0 (cleared
when the stack is empty). -/
def update_keyboard_focus (st : SeatState) (serial : ℕ) : SeatState × List SeatEvent :=
  if !st.pointerGrabbed
      && (!st.keyboardGrabbed || st.inputMethodKeyboardGrabbed)
      && !(st.touchGrabbed.getD false) then
    let kbd := st.elements.get? 0
    ({ st with keyboardFocus := kbd }, [.setFocus kbd serial])
  else
    (st, [])

/-- Embeds `on_pointer_button`: a button-down first runs
`update_keyboard_focus`, then the button event is forwarded to the
pointer and a frame is emitted. -/
def on_pointer_button (st : SeatState) (button : ℕ) (pressed : Bool)
    (serial : ℕ) : SeatState × List SeatEvent :=
  let step := if pressed then update_keyboard_focus st serial else (st, [])
  (step.1, step.2 ++ [.button button pressed serial, .frame])

/-- No capability of the seat currently holds a grab that blocks
click-to-focus (an input-method override neutralises a keyboard grab). -/
def noFocusBlockingGrab (st : SeatState) : Prop :=
  st.pointerGrabbed = false ∧
  (st.keyboardGrabbed = false ∨ st.inputMethodKeyboardGrabbed = true) ∧
  st.touchGrabbed.getD false = false

instance (st : SeatState) : Decidable (noFocusBlockingGrab st) := by
  unfold noFocusBlockingGrab; infer_instance

/-- C4: on button-down with no blocking grab, focus is recomputed to the
window at stack index 0 (or cleared on an empty stack) and the
`setFocus` event precedes the button event and the frame marker; with
any blocking grab active, the focus is left untouched and only the
button event and frame are emitted. -/
theorem pointer_button_focus (st : SeatState) (button serial : ℕ) (pressed : Bool) :
    (pressed = true → noFocusBlockingGrab st →
      on_pointer_button st button pressed serial =
        ({ st with keyboardFocus := st.elements.head? },
         [.setFocus st.elements.head? serial, .button button true serial, .frame])) ∧
    (¬ noFocusBlockingGrab st →
      on_pointer_button st button pressed serial =
        (st, [.button button pressed serial, .frame])) := by
  constructor
  · intro hp hng
    subst hp
    obtain ⟨h1, h2, h3⟩ := hng
    have hcond : (!st.pointerGrabbed
        && (!st.keyboardGrabbed || st.inputMethodKeyboardGrabbed)
        && !(st.touchGrabbed.getD false)) = true := by
      rcases h2 with h2 | h2 <;> simp [h1, h2, h3]
    simp only [on_pointer_button, update_keyboard_focus, hcond, if_true,
      List.get?_eq_getElem?]
    rw [← List.head?_eq_getElem?]
    simp
  · intro hng
    have hcond : (!st.pointerGrabbed
        && (!st.keyboardGrabbed || st.inputMethodKeyboardGrabbed)
        && !(st.touchGrabbed.getD false)) = false := by
      by_contra h
      have h' := eq_true_of_ne_false h
      simp only [Bool.and_eq_true, Bool.not_eq_true', Bool.or_eq_true,
        Bool.not_eq_false'] at h'
      exact hng ⟨h'.1.1, h'.1.2, h'.2⟩
    cases pressed <;>
      simp [on_pointer_button, update_keyboard_focus, hcond]

/-- C4 witness: seat with no grabs and stack `[7, 3]`: button-down
refocuses to window 7 before forwarding; the same seat with a pointer
grab leaves the previous focus 3 untouched. -/
theorem pointer_button_focus_witness :
    on_pointer_button ⟨false, false, false, none, some 3, [7, 3]⟩ 272 true 9 =
      (⟨false, false, false, none, some 7, [7, 3]⟩,
       [.setFocus (some 7) 9, .button 272 true 9, .frame]) ∧
    on_pointer_button ⟨true, false, false, none, some 3, [7, 3]⟩ 272 true 9 =
      (⟨true, false, false, none, some 3, [7, 3]⟩,
       [.button 272 true 9, .frame]) := by
  constructor
  · have h := (pointer_button_focus ⟨false, false, false, none, some 3, [7, 3]⟩
      272 9 true).1 rfl (by decide)
    rw [h]
    rfl
  · have h := (pointer_button_focus ⟨true, false, false, none, some 3, [7, 3]⟩
      272 9 true).2 (by decide)
    rw [h]


/-! ### Relative pointer motion (`src/input_handler.rs`, udev backend) -/

/-- The window state read by `on_pointer_move`: its bounding-box size
(`window.bbox().size`), whether `window.wl_surface()` is present, and
whether an active `PointerConstraint::Locked` is attached to that
surface. -/
structure PtrWindow where
  bboxW : ℚ
  bboxH : ℚ
  hasWlSurface : Bool
  lockActive : Bool
  deriving DecidableEq, Repr

/-- Pointer-relevant seat state: the tracked location
(`self.pointer.current_location()`) and the currently relevant window
(`self.current_window()`, the window at stack index 0). -/
structure PointerState where
  loc : ℚ × ℚ
  currentWindow : Option PtrWindow
  deriving DecidableEq, Repr

/-- Events `on_pointer_move` can emit. -/
inductive PtrEvent
  | relativeMotion (delta : ℚ × ℚ)
  | motion (loc : ℚ × ℚ) (serial : ℕ)
  | frame
  deriving DecidableEq, Repr

/-- Embeds `clamp_coords`: with a current window, each coordinate is
clamped into `[0, bbox size]`; with no window the position is returned
unchanged. -/
def clamp_coords (st : PointerState) (pos : ℚ × ℚ) : ℚ × ℚ :=
  match st.currentWindow with
  | some w => (min (max pos.1 0) w.bboxW, min (max pos.2 0) w.bboxH)
  | none => pos

/-- Embeds `on_pointer_move`: when a current window exists, the active
pointer-lock constraint on its surface is looked up and a
relative-motion event is emitted; a locked pointer then only gets the
frame marker, otherwise the location is advanced by the delta, clamped,
and a motion event plus frame are emitted. -/
def on_pointer_move (st : PointerState) (delta : ℚ × ℚ) (serial : ℕ) :
    PointerState × List PtrEvent :=
  let pointer_locked :=
    match st.currentWindow with
    | some w => w.hasWlSurface && w.lockActive
    | none => false
  let relEvents : List PtrEvent :=
    match st.currentWindow with
    | some _ => [.relativeMotion delta]
    | none => []
  if pointer_locked then
    (st, relEvents ++ [.frame])
  else
    let pointer_location := (st.loc.1 + delta.1, st.loc.2 + delta.2)
    let pointer_location := clamp_coords st pointer_location
    ({ st with loc := pointer_location },
     relEvents ++ [.motion pointer_location serial, .frame])

/-- C9 (amended): with a current window and no active lock, the tracked
location is advanced by the delta and clamped to the window's bounding
box before the motion event and frame marker; with an active lock only
the relative-motion event and frame are emitted and the location is
unchanged; with no current window the location is advanced by the delta
without any clamping. -/
theorem pointer_move_clamp (st : PointerState) (delta : ℚ × ℚ) (serial : ℕ) :
    (∀ w, st.currentWindow = some w → (w.hasWlSurface && w.lockActive) = false →
      on_pointer_move st delta serial =
        ({ st with loc := (min (max (st.loc.1 + delta.1) 0) w.bboxW,
                           min (max (st.loc.2 + delta.2) 0) w.bboxH) },
         [.relativeMotion delta,
          .motion (min (max (st.loc.1 + delta.1) 0) w.bboxW,
                   min (max (st.loc.2 + delta.2) 0) w.bboxH) serial,
          .frame])) ∧
    (∀ w, st.currentWindow = some w → (w.hasWlSurface && w.lockActive) = true →
      on_pointer_move st delta serial = (st, [.relativeMotion delta, .frame])) ∧
    (st.currentWindow = none →
      on_pointer_move st delta serial =
        ({ st with loc := (st.loc.1 + delta.1, st.loc.2 + delta.2) },
         [.motion (st.loc.1 + delta.1, st.loc.2 + delta.2) serial, .frame])) := by
  refine ⟨?_, ?_, ?_⟩
  · intro w hw hnl
    simp [on_pointer_move, clamp_coords, hw, hnl]
  · intro w hw hl
    simp [on_pointer_move, hw, hl]
  · intro hw
    simp [on_pointer_move, clamp_coords, hw]

/-- C9 counterexample: the claim says that with no current window the
location is clamped to the output; on a 1920×1080 output the code moves
the pointer to (100000, 100000), far outside any output rectangle, so
no clamping to the output happens. -/
theorem pointer_move_no_window_unclamped :
    (on_pointer_move ⟨(0, 0), none⟩ (100000, 100000) 5).1.loc =
      (100000, 100000) ∧
    ¬ ((100000 : ℚ) ≤ 1920 ∧ (100000 : ℚ) ≤ 1080) := by
  constructor
  · norm_num [on_pointer_move, clamp_coords]
  · intro h
    have := h.1
    norm_num at this

/-- C9 witness: window with bbox 640×480 and no lock: motion by (1000, -50)
from (600, 20) clamps to (640, 0); the same window with an active lock
leaves the location at (600, 20) and emits only relative motion and
frame. -/
theorem pointer_move_clamp_witness :
    on_pointer_move ⟨(600, 20), some ⟨640, 480, true, false⟩⟩ (1000, -50) 11 =
      (⟨(640, 0), some ⟨640, 480, true, false⟩⟩,
       [.relativeMotion (1000, -50), .motion (640, 0) 11, .frame]) ∧
    on_pointer_move ⟨(600, 20), some ⟨640, 480, true, true⟩⟩ (1000, -50) 11 =
      (⟨(600, 20), some ⟨640, 480, true, true⟩⟩,
       [.relativeMotion (1000, -50), .frame]) := by
  constructor
  · have h := (pointer_move_clamp ⟨(600, 20), some ⟨640, 480, true, false⟩⟩
      (1000, -50) 11).1 ⟨640, 480, true, false⟩ rfl (by decide)
    rw [h]
    norm_num
  · have h := (pointer_move_clamp ⟨(600, 20), some ⟨640, 480, true, true⟩⟩
      (1000, -50) 11).2.1 ⟨640, 480, true, true⟩ rfl (by decide)
    rw [h]

/-! ### Surface attachment and the draw tree walk (`src/drawing.rs`) -/

/-- Buffer kinds distinguished by `buffer_type` in the import branch:
shared memory against everything else. -/
inductive BufferKind
  | shm
  | dma
  deriving DecidableEq, Repr

/-- Result of `renderer.import_buffer` for a buffer: `Some(Ok(_))`,
`Some(Err(_))` or `None` (unknown buffer format). -/
inductive ImportOutcome
  | imported
  | importError
  | unknownFormat
  deriving DecidableEq, Repr

/-- A client buffer handle, carrying the renderer's (external) verdict
on importing it. -/
structure WlBuffer where
  id : ℕ
  kind : BufferKind
  import_result : ImportOutcome
  deriving DecidableEq, Repr

/-- Mirrors `BufferTextures`: the imported texture together with the
retained client buffer (`None` for shared-memory buffers, which were
released right after import). -/
structure BufferTextures where
  buffer : Option WlBuffer
  textureId : ℕ
  deriving DecidableEq, Repr

/-- Embeds `impl Drop for BufferTextures`: dropping the record releases
the retained buffer, if any; the returned list holds the released
buffer ids. -/
def bufferTexturesDrop (bt : BufferTextures) : List ℕ :=
  match bt.buffer with
  | some b => [b.id]
  | none => []

/-- The fields of `shell::SurfaceData` read by `draw_surface_tree`:
the pending committed buffer and the imported texture record. -/
structure SurfaceData where
  buffer : Option WlBuffer
  texture : Option BufferTextures
  deriving DecidableEq, Repr

/-- Log lines of the import branch: `warn!("Error loading buffer ...")`
and `error!("Unknown buffer format ...")`. -/
inductive LogMsg
  | errorLoadingBuffer (bufferId : ℕ)
  | unknownBufferFormat (bufferId : ℕ)
  deriving DecidableEq, Repr

/-- Result of the buffer-import step on one surface. -/
structure ImportStep where
  data : SurfaceData
  released : List ℕ
  logs : List LogMsg
  deriving DecidableEq, Repr

/-- Embeds the import branch of the first closure of `draw_surface_tree`
(`src/drawing.rs`): when no texture exists yet the pending buffer is
taken; on successful import a shared-memory buffer is released at once
and the texture record retains no handle, any other buffer is retained
inside the record; on a failed or unknown-format import the buffer is
released and the failure logged. -/
def import_step (d : SurfaceData) : ImportStep :=
  if d.texture.isSome then ⟨d, [], []⟩
  else
    match d.buffer with
    | none => ⟨d, [], []⟩
    | some buffer =>
      match buffer.import_result with
      | .imported =>
        let texture_buffer : Option WlBuffer :=
          if buffer.kind = .shm then none else some buffer
        let released := if buffer.kind = .shm then [buffer.id] else []
        ⟨{ d with buffer := none,
                  texture := some ⟨texture_buffer, buffer.id⟩ }, released, []⟩
      | .importError =>
        ⟨{ d with buffer := none }, [buffer.id], [.errorLoadingBuffer buffer.id]⟩
      | .unknownFormat =>
        ⟨{ d with buffer := none }, [buffer.id], [.unknownBufferFormat buffer.id]⟩

/-- Overwriting the stored texture record of a surface.  The overwrite
itself happens in the commit path (outside `draw_surface_tree`); what it
releases is dictated by the `Drop` impl embedded above: the previous
record's retained buffer. -/
def replace_texture (d : SurfaceData) (nt : Option BufferTextures) :
    SurfaceData × List ℕ :=
  ({ d with texture := nt },
   match d.texture with
   | some bt => bufferTexturesDrop bt
   | none => [])

/-- Per-node state visible to `draw_surface_tree`: the surface id, its
`SurfaceData` entry (absent when the surface was never initialised), the
subsurface role and cached parent-relative offset, and whether the
external renderer would fail to draw this node
(`frame.render_texture_* -> Err`). -/
structure NodeAttrs where
  id : ℕ
  data : Option SurfaceData
  isSubsurface : Bool
  subsurfaceLoc : ℤ × ℤ
  renderFails : Bool
  deriving DecidableEq, Repr

/-- A surface and its subsurface tree, children in draw order. -/
inductive SurfaceTree
  | node (attrs : NodeAttrs) (children : List SurfaceTree)

/-- Aggregate outcome of walking a surface tree: emitted draw operations
(surface id and absolute location), released buffer ids, log lines, and
whether some emitted draw operation failed in the renderer. -/
structure WalkOut where
  ops : List (ℕ × ℤ × ℤ)
  released : List ℕ
  logs : List LogMsg
  renderErr : Bool
  deriving DecidableEq, Repr

mutual

/-- Embeds `with_surface_tree_upward` as used by `draw_surface_tree`:
the first closure imports the pending buffer and answers `DoChildren`
(with the subsurface offset added) only when a texture exists, else
`SkipChildren`; the second closure emits the draw operation for each
node that has a texture, parent before children. -/
def walkTree : SurfaceTree → ℤ × ℤ → SurfaceTree × WalkOut
  | .node attrs children, location =>
    match attrs.data with
    | none =>
      -- no SurfaceData entry: SkipChildren, nothing drawn
      (.node attrs children, ⟨[], [], [], false⟩)
    | some d =>
      let step := import_step d
      let attrs1 := { attrs with data := some step.data }
      if step.data.texture.isSome then
        let loc :=
          if attrs.isSubsurface then
            (location.1 + attrs.subsurfaceLoc.1, location.2 + attrs.subsurfaceLoc.2)
          else location
        let rest := walkChildren children loc
        (.node attrs1 rest.1,
         ⟨(attrs.id, loc) :: rest.2.ops,
          step.released ++ rest.2.released,
          step.logs ++ rest.2.logs,
          attrs.renderFails || rest.2.renderErr⟩)
      else
        -- we are not displayed, so our children are neither
        (.node attrs1 children, ⟨[], step.released, step.logs, false⟩)

def walkChildren : List SurfaceTree → ℤ × ℤ → List SurfaceTree × WalkOut
  | [], _ => ([], ⟨[], [], [], false⟩)
  | t :: ts, location =>
    let r1 := walkTree t location
    let r2 := walkChildren ts location
    (r1.1 :: r2.1,
     ⟨r1.2.ops ++ r2.2.ops,
      r1.2.released ++ r2.2.released,
      r1.2.logs ++ r2.2.logs,
      r1.2.renderErr || r2.2.renderErr⟩)

end

mutual

/-- All surface ids of a tree, root first. -/
def treeIds : SurfaceTree → List ℕ
  | .node attrs children => attrs.id :: childIds children

/-- All surface ids of a forest. -/
def childIds : List SurfaceTree → List ℕ
  | [] => []
  | t :: ts => treeIds t ++ childIds ts

end

/-- The children of a tree's root. -/
def childrenOf : SurfaceTree → List SurfaceTree
  | .node _ children => children

/-- The root's attributes. -/
def attrsOf : SurfaceTree → NodeAttrs
  | .node attrs _ => attrs

/-- `Subtree s t`: `s` is `t` itself or a subtree of one of its
children. -/
inductive Subtree : SurfaceTree → SurfaceTree → Prop
  | refl (t : SurfaceTree) : Subtree t t
  | child {s c : SurfaceTree} {t : SurfaceTree} (hc : c ∈ childrenOf t)
      (h : Subtree s c) : Subtree s t

/-- Whether the root of a tree ends up displayable after the import
step: it has a `SurfaceData` entry whose texture exists post-import. -/
def displayableRoot (t : SurfaceTree) : Bool :=
  match (attrsOf t).data with
  | none => false
  | some d => ((import_step d).data.texture).isSome

theorem walkTree_node_nodata (attrs : NodeAttrs) (children : List SurfaceTree)
    (loc : ℤ × ℤ) (h : attrs.data = none) :
    walkTree (.node attrs children) loc = (.node attrs children, ⟨[], [], [], false⟩) := by
  rw [walkTree, h]

theorem walkTree_node_skip (attrs : NodeAttrs) (children : List SurfaceTree)
    (loc : ℤ × ℤ) (d : SurfaceData) (h : attrs.data = some d)
    (ht : (import_step d).data.texture.isSome = false) :
    walkTree (.node attrs children) loc =
      (.node { attrs with data := some (import_step d).data } children,
       ⟨[], (import_step d).released, (import_step d).logs, false⟩) := by
  rw [walkTree, h]
  simp [ht]

theorem walkTree_node_draw (attrs : NodeAttrs) (children : List SurfaceTree)
    (loc : ℤ × ℤ) (d : SurfaceData) (h : attrs.data = some d)
    (ht : (import_step d).data.texture.isSome = true) :
    walkTree (.node attrs children) loc =
      ((.node { attrs with data := some (import_step d).data }
          (walkChildren children
            (if attrs.isSubsurface then
              (loc.1 + attrs.subsurfaceLoc.1, loc.2 + attrs.subsurfaceLoc.2)
             else loc)).1),
       ⟨(attrs.id,
          (if attrs.isSubsurface then
            (loc.1 + attrs.subsurfaceLoc.1, loc.2 + attrs.subsurfaceLoc.2)
           else loc)) ::
          (walkChildren children
            (if attrs.isSubsurface then
              (loc.1 + attrs.subsurfaceLoc.1, loc.2 + attrs.subsurfaceLoc.2)
             else loc)).2.ops,
        (import_step d).released ++
          (walkChildren children
            (if attrs.isSubsurface then
              (loc.1 + attrs.subsurfaceLoc.1, loc.2 + attrs.subsurfaceLoc.2)
             else loc)).2.released,
        (import_step d).logs ++
          (walkChildren children
            (if attrs.isSubsurface then
              (loc.1 + attrs.subsurfaceLoc.1, loc.2 + attrs.subsurfaceLoc.2)
             else loc)).2.logs,
        attrs.renderFails ||
          (walkChildren children
            (if attrs.isSubsurface then
              (loc.1 + attrs.subsurfaceLoc.1, loc.2 + attrs.subsurfaceLoc.2)
             else loc)).2.renderErr⟩) := by
  rw [walkTree, h]
  simp [ht]

theorem walkTree_ops_nil_of_fail (t : SurfaceTree) (loc : ℤ × ℤ)
    (h : displayableRoot t = false) : (walkTree t loc).2.ops = [] := by
  match t with
  | .node attrs children =>
    match hdata : attrs.data with
    | none => rw [walkTree_node_nodata attrs children loc hdata]
    | some d =>
      have ht : (import_step d).data.texture.isSome = false := by
        simpa [displayableRoot, attrsOf, hdata] using h
      rw [walkTree_node_skip attrs children loc d hdata ht]

theorem mem_childIds_sub {c : SurfaceTree} {cs : List SurfaceTree}
    (hc : c ∈ cs) : ∀ i ∈ treeIds c, i ∈ childIds cs := by
  induction cs with
  | nil => exact absurd hc (List.not_mem_nil c)
  | cons t ts ih =>
    intro i hi
    rcases List.mem_cons.mp hc with h | h
    · subst h
      exact List.mem_append.mpr (Or.inl hi)
    · exact List.mem_append.mpr (Or.inr (ih h i hi))

theorem subtree_ids_sub {s t : SurfaceTree} (h : Subtree s t) :
    ∀ i ∈ treeIds s, i ∈ treeIds t := by
  induction h with
  | refl => exact fun i hi => hi
  | child hc _h ih =>
    rename_i t
    intro i hi
    match t with
    | .node attrs children =>
      have hm : i ∈ childIds children := mem_childIds_sub hc i (ih i hi)
      exact List.mem_cons_of_mem _ hm

mutual

theorem ops_mem_treeIds : ∀ (t : SurfaceTree) (loc : ℤ × ℤ) (p : ℕ × ℤ × ℤ),
    p ∈ (walkTree t loc).2.ops → p.1 ∈ treeIds t
  | .node attrs children, loc, p, hp => by
    match hdata : attrs.data with
    | none =>
      rw [walkTree_node_nodata attrs children loc hdata] at hp
      exact absurd hp (List.not_mem_nil p)
    | some d =>
      by_cases ht : (import_step d).data.texture.isSome
      · rw [walkTree_node_draw attrs children loc d hdata ht] at hp
        simp only [treeIds]
        rcases List.mem_cons.mp hp with hp | hp
        · subst hp
          exact List.mem_cons_self _ _
        · exact List.mem_cons_of_mem _ (ops_mem_childIds children _ p hp)
      · rw [walkTree_node_skip attrs children loc d hdata
          (Bool.eq_false_iff.mpr ht)] at hp
        exact absurd hp (List.not_mem_nil p)

theorem ops_mem_childIds : ∀ (ts : List SurfaceTree) (loc : ℤ × ℤ) (p : ℕ × ℤ × ℤ),
    p ∈ (walkChildren ts loc).2.ops → p.1 ∈ childIds ts
  | [], loc, p, hp => by
    simp [walkChildren] at hp
  | t :: ts, loc, p, hp => by
    simp only [walkChildren] at hp
    simp only [childIds]
    rcases List.mem_append.mp hp with hp | hp
    · exact List.mem_append.mpr (Or.inl (ops_mem_treeIds t loc p hp))
    · exact List.mem_append.mpr (Or.inr (ops_mem_childIds ts loc p hp))

end

mutual

theorem walk_skip_aux : ∀ (t : SurfaceTree) (loc : ℤ × ℤ) (s : SurfaceTree),
    (treeIds t).Nodup → Subtree s t → displayableRoot s = false →
    ∀ p ∈ (walkTree t loc).2.ops, p.1 ∉ treeIds s
  | .node attrs children, loc, s, hnd, hsub, hfail, p, hp => by
    cases hsub with
    | refl =>
      rw [walkTree_ops_nil_of_fail _ _ hfail] at hp
      exact absurd hp (List.not_mem_nil p)
    | child hc hsubc =>
      rename_i c
      match hdata : attrs.data with
      | none =>
        rw [walkTree_node_nodata attrs children loc hdata] at hp
        exact absurd hp (List.not_mem_nil p)
      | some d =>
        by_cases ht : (import_step d).data.texture.isSome
        · rw [walkTree_node_draw attrs children loc d hdata ht] at hp
          have hnd2 : (childIds children).Nodup ∧ attrs.id ∉ childIds children := by
            have := hnd
            simp only [treeIds, List.nodup_cons] at this
            exact ⟨this.2, this.1⟩
          rcases List.mem_cons.mp hp with hp | hp
          · subst hp
            intro hmem
            have h1 : attrs.id ∈ treeIds c := subtree_ids_sub hsubc _ hmem
            have h2 : attrs.id ∈ childIds children := mem_childIds_sub hc _ h1
            exact hnd2.2 h2
          · exact walk_skip_children_aux children _ s c hnd2.1 hc hsubc hfail p hp
        · rw [walkTree_node_skip attrs children loc d hdata
            (Bool.eq_false_iff.mpr ht)] at hp
          exact absurd hp (List.not_mem_nil p)

theorem walk_skip_children_aux : ∀ (ts : List SurfaceTree) (loc : ℤ × ℤ)
    (s c : SurfaceTree),
    (childIds ts).Nodup → c ∈ ts → Subtree s c → displayableRoot s = false →
    ∀ p ∈ (walkChildren ts loc).2.ops, p.1 ∉ treeIds s
  | [], _, s, c, _, hc, _, _, p, hp => absurd hc (List.not_mem_nil c)
  | t :: ts, loc, s, c, hnd, hc, hsub, hfail, p, hp => by
    simp only [childIds] at hnd
    obtain ⟨hnd1, hnd2, hdisj⟩ := List.nodup_append.mp hnd
    simp only [walkChildren] at hp
    rcases List.mem_append.mp hp with hp | hp
    · -- the op comes from the head tree
      rcases List.mem_cons.mp hc with hceq | hcmem
      · exact walk_skip_aux t loc s hnd1 (hceq ▸ hsub) hfail p hp
      · -- op id is in the head tree, s lives in the tail: disjointness
        intro hmem
        have h1 : p.1 ∈ treeIds t := ops_mem_treeIds t loc p hp
        have h2 : p.1 ∈ treeIds c := subtree_ids_sub hsub _ hmem
        have h3 : p.1 ∈ childIds ts := mem_childIds_sub hcmem _ h2
        exact hdisj h1 h3
    · -- the op comes from the tail forest
      rcases List.mem_cons.mp hc with hceq | hcmem
      · intro hmem
        have h1 : p.1 ∈ childIds ts := ops_mem_childIds ts loc p hp
        have h2 : p.1 ∈ treeIds t := subtree_ids_sub (hceq ▸ hsub) _ hmem
        exact hdisj h2 h1
      · exact walk_skip_children_aux ts loc s c hnd2 hcmem hsub hfail p hp

end

/-- C2: in a surface tree with distinct surface ids, a node that ends up
with no importable texture (no `SurfaceData`, no attached buffer and no
texture, unknown buffer format, or failed import) contributes no draw
operation, and neither does any descendant of it. -/
theorem failed_import_subtree_skipped (t : SurfaceTree) (loc : ℤ × ℤ)
    (s : SurfaceTree) (hnd : (treeIds t).Nodup) (hsub : Subtree s t)
    (hfail : displayableRoot s = false) :
    ∀ p ∈ (walkTree t loc).2.ops, p.1 ∉ treeIds s :=
  walk_skip_aux t loc s hnd hsub hfail

/-- C2 witness scaffolding: a subsurface whose buffer import fails, with
a displayable subsurface of its own beneath it. -/
def demoFailedNode : SurfaceTree :=
  .node ⟨2, some ⟨some ⟨20, .dma, .importError⟩, none⟩, true, (5, 5), false⟩
    [.node ⟨3, some ⟨none, some ⟨none, 30⟩⟩, true, (1, 1), false⟩ []]

/-- C2 witness scaffolding: a displayable root with the failed subtree
and one displayable subsurface. -/
def demoRoot : SurfaceTree :=
  .node ⟨1, some ⟨none, some ⟨none, 10⟩⟩, false, (0, 0), false⟩
    [demoFailedNode, .node ⟨4, some ⟨none, some ⟨none, 40⟩⟩, true, (2, 2), false⟩ []]

/-- C2 witness: walking the demo tree draws surfaces 1 and 4 only, and
the claim theorem yields that the drawn id 1 is not in the failed
subtree `[2, 3]`. -/
theorem failed_import_subtree_skipped_witness :
    (walkTree demoRoot (0, 0)).2.ops = [(1, 0, 0), (4, 2, 2)] ∧
    (1 : ℕ) ∉ treeIds demoFailedNode := by
  refine ⟨by decide, ?_⟩
  exact failed_import_subtree_skipped demoRoot (0, 0) demoFailedNode (by decide)
    (Subtree.child (List.Mem.head _) (Subtree.refl _)) (by decide)
    (1, (0, 0)) (by decide)

/-- C5: after a successful import, a shared-memory buffer is released at
once and the texture record retains no handle; any other buffer is
retained in the record and nothing is released; no import happens while
a texture record exists (so each surface holds at most one live import);
and replacing the stored record releases exactly the previous record's
retained buffer. -/
theorem buffer_release_discipline (d : SurfaceData) (b : WlBuffer) :
    (d.texture = none → d.buffer = some b → b.import_result = .imported →
      b.kind = .shm →
      import_step d =
        ⟨{ d with buffer := none, texture := some ⟨none, b.id⟩ }, [b.id], []⟩) ∧
    (d.texture = none → d.buffer = some b → b.import_result = .imported →
      b.kind ≠ .shm →
      import_step d =
        ⟨{ d with buffer := none, texture := some ⟨some b, b.id⟩ }, [], []⟩) ∧
    (d.texture.isSome = true → import_step d = ⟨d, [], []⟩) ∧
    (∀ bt nt, replace_texture { d with texture := some bt } nt =
      ({ d with texture := nt }, bufferTexturesDrop bt)) ∧
    bufferTexturesDrop ⟨some b, b.id⟩ = [b.id] := by
  refine ⟨?_, ?_, ?_, ?_, ?_⟩
  · intro htex hbuf himp hkind
    simp [import_step, htex, hbuf, himp, hkind]
  · intro htex hbuf himp hkind
    simp [import_step, htex, hbuf, himp, hkind]
  · intro htex
    simp [import_step, htex]
  · intro bt nt
    simp [replace_texture]
  · simp [bufferTexturesDrop]

/-- C5 witness: a shared-memory buffer 7 is released right after import,
a dma buffer 8 is retained in its texture record, and replacing that
record releases buffer 8. -/
theorem buffer_release_discipline_witness :
    import_step ⟨some ⟨7, .shm, .imported⟩, none⟩ =
      ⟨⟨none, some ⟨none, 7⟩⟩, [7], []⟩ ∧
    import_step ⟨some ⟨8, .dma, .imported⟩, none⟩ =
      ⟨⟨none, some ⟨some ⟨8, .dma, .imported⟩, 8⟩⟩, [], []⟩ ∧
    replace_texture ⟨none, some ⟨some ⟨8, .dma, .imported⟩, 8⟩⟩ none =
      (⟨none, none⟩, [8]) := by
  have h1 := (buffer_release_discipline ⟨some ⟨7, .shm, .imported⟩, none⟩
    ⟨7, .shm, .imported⟩).1 rfl rfl rfl rfl
  have h2 := (buffer_release_discipline ⟨some ⟨8, .dma, .imported⟩, none⟩
    ⟨8, .dma, .imported⟩).2.1 rfl rfl rfl (by decide)
  have h3 := ((buffer_release_discipline ⟨none, none⟩
    ⟨8, .dma, .imported⟩).2.2.2.1 ⟨some ⟨8, .dma, .imported⟩, 8⟩ none)
  refine ⟨?_, ?_, ?_⟩
  · simpa using h1
  · simpa using h2
  · simpa [bufferTexturesDrop] using h3

/-- C6: a failed or unknown-format import releases the buffer at once,
logs the error, leaves the surface without a texture, and the walk of
that node draws nothing (its own renderer flag can no longer fail the
frame) while the rest of the frame proceeds normally. -/
theorem import_failure_nonfatal (attrs : NodeAttrs) (children : List SurfaceTree)
    (loc : ℤ × ℤ) (d : SurfaceData) (b : WlBuffer)
    (hdata : attrs.data = some d) (htex : d.texture = none)
    (hbuf : d.buffer = some b) (hfail : b.import_result ≠ .imported) :
    (import_step d).data.texture = none ∧
    (import_step d).released = [b.id] ∧
    (import_step d).logs ≠ [] ∧
    walkTree (.node attrs children) loc =
      (.node { attrs with data := some (import_step d).data } children,
       ⟨[], [b.id], (import_step d).logs, false⟩) := by
  have hstep : (import_step d).data.texture = none ∧
      (import_step d).released = [b.id] ∧ (import_step d).logs ≠ [] := by
    cases hres : b.import_result with
    | imported => exact absurd hres hfail
    | importError => refine ⟨?_, ?_, ?_⟩ <;> simp [import_step, htex, hbuf, hres]
    | unknownFormat => refine ⟨?_, ?_, ?_⟩ <;> simp [import_step, htex, hbuf, hres]
  have hs : (import_step d).data.texture.isSome = false := by
    rw [hstep.1]; rfl
  refine ⟨hstep.1, hstep.2.1, hstep.2.2, ?_⟩
  rw [walkTree_node_skip attrs children loc d hdata hs, hstep.2.1]

/-- C6 witness: surface 9 with an unknown-format buffer 90 and a
renderer that would fail on it: the buffer is released, the error
logged, nothing drawn and the walk reports no render error. -/
theorem import_failure_nonfatal_witness :
    walkTree (.node ⟨9, some ⟨some ⟨90, .dma, .unknownFormat⟩, none⟩, false,
        (0, 0), true⟩ []) (0, 0) =
      (.node ⟨9, some ⟨none, none⟩, false, (0, 0), true⟩ [],
       ⟨[], [90], [.unknownBufferFormat 90], false⟩) := by
  have h := import_failure_nonfatal
    ⟨9, some ⟨some ⟨90, .dma, .unknownFormat⟩, none⟩, false, (0, 0), true⟩ []
    (0, 0) ⟨some ⟨90, .dma, .unknownFormat⟩, none⟩ ⟨90, .dma, .unknownFormat⟩
    rfl rfl rfl (by decide)
  rw [h.2.2.2]
  rfl

/-! ### Foreign-toplevel bridge (`src/shell/toplevel_manager.rs`)

The bridge is modelled against one subscribed client instance: the
per-toplevel `instances` map of the source sends the same event
sequence to every instance, so one instance with its `Vec<WlOutput>`
bookkeeping captures the emitted protocol traffic. -/

/-- Events a `ZwlrForeignToplevelHandleV1` instance can receive; state
flag lists use the protocol values maximized = 0, minimized = 1,
activated = 2, fullscreen = 3. -/
inductive TmEvent
  | title (s : String)
  | appId (s : String)
  | stateFlags (flags : List ℕ)
  | outputLeave (o : ℕ)
  | outputEnter (o : ℕ)
  | done
  deriving DecidableEq, Repr

/-- A compositor output together with the `wl_output` ids it resolves to
for the subscribed client (`output.client_outputs(client)`). -/
structure OutputHandle where
  id : ℕ
  clientOutputs : List ℕ
  deriving DecidableEq, Repr

/-- Mirrors `ToplevelData`: the previously published snapshot for one
toplevel, plus the `Vec<WlOutput>` of the modelled instance. -/
structure ToplevelData where
  title : Option String
  app_id : Option String
  states : List ℕ
  output : Option OutputHandle
  instanceOutputs : List ℕ
  deriving DecidableEq, Repr

/-- Embeds `to_state_vec`: pushes maximized, fullscreen, then activated,
into a capacity-3 vector (never more than three pushes). -/
def to_state_vec (maximized fullscreen has_focus : Bool) : List ℕ :=
  (if maximized then [0] else []) ++
  (if fullscreen then [3] else []) ++
  (if has_focus then [2] else [])

/-- The fields of `XdgToplevelSurfaceRoleAttributes` read by
`refresh_toplevel`. -/
structure RoleAttrs where
  title : Option String
  app_id : Option String
  maximized : Bool
  fullscreen : Bool
  deriving DecidableEq, Repr

/-- Embeds the `Entry::Occupied` branch of `refresh_toplevel` (Wayland
toplevels): each of title, app-id, state list and output is diffed
against the stored snapshot, only the changed ones are sent, and a
`done` marker closes any non-empty batch.  The returned `Bool` is the
`has_focus` value passed on to the next window (the source clears it
unless the role title is exactly "nil"). -/
def refresh_toplevel (d : ToplevelData) (role : RoleAttrs)
    (output : Option OutputHandle) (has_focus : Bool) :
    (ToplevelData × List TmEvent) × Bool :=
  let states := to_state_vec role.maximized role.fullscreen has_focus
  let has_focus_out :=
    if role.title = none ∨ role.title ≠ some "nil" then false else has_focus
  let titleChanged := d.title ≠ role.title
  let d1 := if titleChanged then { d with title := role.title } else d
  let new_title : Option String := if titleChanged then role.title else none
  let appIdChanged := d.app_id ≠ role.app_id
  let d2 := if appIdChanged then { d1 with app_id := role.app_id } else d1
  let new_app_id : Option String := if appIdChanged then role.app_id else none
  let states_changed := d.states ≠ states
  let d3 := if states_changed then { d2 with states := states } else d2
  let output_changed := d.output ≠ output
  let d4 := if output_changed then { d3 with output := output } else d3
  let something_changed :=
    new_title.isSome ∨ new_app_id.isSome ∨ states_changed ∨ output_changed
  let titleEvents := match new_title with | some t => [TmEvent.title t] | none => []
  let appIdEvents := match new_app_id with | some a => [TmEvent.appId a] | none => []
  let stateEvents := if states_changed then [TmEvent.stateFlags states] else []
  let outputEvents :=
    if output_changed then
      d.instanceOutputs.map TmEvent.outputLeave ++
        (match output with
         | some o => o.clientOutputs.map TmEvent.outputEnter
         | none => [])
    else []
  let newInstanceOutputs :=
    if output_changed then
      (match output with | some o => o.clientOutputs | none => [])
    else d.instanceOutputs
  let events :=
    if something_changed then
      titleEvents ++ appIdEvents ++ stateEvents ++ outputEvents ++ [TmEvent.done]
    else []
  (({ d4 with instanceOutputs := newInstanceOutputs }, events), has_focus_out)

/-- The state-flag vector `refresh_toplevel_x11` builds and then
discards: maximized, minimized, activated, fullscreen, pushed into an
`ArrayVec<u32, 3>` — a fourth push overflows the capacity. -/
def x11_states0 (maximized minimized has_focus fullscreen : Bool) : List ℕ :=
  (if maximized then [0] else []) ++
  (if minimized then [1] else []) ++
  (if has_focus then [2] else []) ++
  (if fullscreen then [3] else [])

/-- Embeds the `Entry::Occupied` branch of `refresh_toplevel_x11` (X11
toplevels).  The computed state flags are shadowed by
`let states = ArrayVec::new();`, so the published state list is always
empty; the title update is guarded by `data.title != title &&
new_title.is_some()` with `new_title` just initialised to `None`, so it
never fires; the app-id is not diffed at all.  Building the discarded
flag vector can still overflow its capacity of 3 (a panic), embedded as
`none`. -/
def refresh_toplevel_x11 (d : ToplevelData) (title _app_id : Option String)
    (maximized minimized fullscreen : Bool) (output : Option OutputHandle)
    (has_focus : Bool) : Option (ToplevelData × List TmEvent) :=
  if (x11_states0 maximized minimized has_focus fullscreen).length > 3 then none
  else
    let states : List ℕ := []
    let new_title0 : Option String := none
    let titleChanged := d.title ≠ title ∧ new_title0.isSome
    let d1 := if titleChanged then { d with title := title } else d
    let new_title : Option String := if titleChanged then title else none
    let states_changed := d.states ≠ states
    let d2 := if states_changed then { d1 with states := states } else d1
    let output_changed := d.output ≠ output
    let d3 := if output_changed then { d2 with output := output } else d2
    let something_changed := new_title.isSome ∨ states_changed ∨ output_changed
    let titleEvents := match new_title with | some t => [TmEvent.title t] | none => []
    let stateEvents := if states_changed then [TmEvent.stateFlags states] else []
    let outputEvents :=
      if output_changed then
        d.instanceOutputs.map TmEvent.outputLeave ++
          (match output with
           | some o => o.clientOutputs.map TmEvent.outputEnter
           | none => [])
      else []
    let newInstanceOutputs :=
      if output_changed then
        (match output with | some o => o.clientOutputs | none => [])
      else d.instanceOutputs
    let events :=
      if something_changed then
        titleEvents ++ stateEvents ++ outputEvents ++ [TmEvent.done]
      else []
    some ({ d3 with instanceOutputs := newInstanceOutputs }, events)

theorem rt_events_nil (d : ToplevelData) (role : RoleAttrs)
    (output : Option OutputHandle) (focus : Bool)
    (h1 : d.title = role.title) (h2 : d.app_id = role.app_id)
    (h3 : d.states = to_state_vec role.maximized role.fullscreen focus)
    (h4 : d.output = output) :
    (refresh_toplevel d role output focus).1.2 = [] := by
  simp [refresh_toplevel, h1, h2, h3, h4]

theorem rt_events_shape (d : ToplevelData) (role : RoleAttrs)
    (output : Option OutputHandle) (focus : Bool) :
    (refresh_toplevel d role output focus).1.2 = [] ∨
    ∃ l, (refresh_toplevel d role output focus).1.2 = l ++ [TmEvent.done] := by
  simp only [refresh_toplevel]
  repeat' split
  all_goals
    first
      | exact Or.inl rfl
      | exact Or.inr ⟨_, rfl⟩

theorem rt_done_last (d : ToplevelData) (role : RoleAttrs)
    (output : Option OutputHandle) (focus : Bool)
    (hne : (refresh_toplevel d role output focus).1.2 ≠ []) :
    (refresh_toplevel d role output focus).1.2.getLast? = some .done := by
  rcases rt_events_shape d role output focus with h | ⟨l, h⟩
  · exact absurd h hne
  · rw [h]
    exact List.getLast?_concat _

theorem rt_title_unchanged (d : ToplevelData) (role : RoleAttrs)
    (output : Option OutputHandle) (focus : Bool)
    (h1 : d.title = role.title) :
    ∀ t, TmEvent.title t ∉ (refresh_toplevel d role output focus).1.2 := by
  intro t
  by_cases h2 : d.app_id = role.app_id <;>
    by_cases h3 : d.states = to_state_vec role.maximized role.fullscreen focus <;>
    by_cases h4 : d.output = output <;>
    cases output <;> cases hra : role.app_id <;>
    simp_all [refresh_toplevel]

theorem rt_title_changed (d : ToplevelData) (role : RoleAttrs)
    (output : Option OutputHandle) (focus : Bool)
    (t : String) (ht : role.title = some t) (hne : d.title ≠ role.title) :
    TmEvent.title t ∈ (refresh_toplevel d role output focus).1.2 := by
  have hne2 : ¬ d.title = some t := ht ▸ hne
  simp [refresh_toplevel, ht, hne2]

theorem rt_app_id_unchanged (d : ToplevelData) (role : RoleAttrs)
    (output : Option OutputHandle) (focus : Bool)
    (h2 : d.app_id = role.app_id) :
    ∀ a, TmEvent.appId a ∉ (refresh_toplevel d role output focus).1.2 := by
  intro a
  by_cases h1 : d.title = role.title <;>
    by_cases h3 : d.states = to_state_vec role.maximized role.fullscreen focus <;>
    by_cases h4 : d.output = output <;>
    cases output <;> cases hrt : role.title <;>
    simp_all [refresh_toplevel]

theorem rt_app_id_changed (d : ToplevelData) (role : RoleAttrs)
    (output : Option OutputHandle) (focus : Bool)
    (a : String) (ha : role.app_id = some a) (hne : d.app_id ≠ role.app_id) :
    TmEvent.appId a ∈ (refresh_toplevel d role output focus).1.2 := by
  have hne2 : ¬ d.app_id = some a := ha ▸ hne
  by_cases h1 : d.title = role.title <;> cases hrt : role.title <;>
    simp_all [refresh_toplevel, ha, hne2]

theorem rt_states_unchanged (d : ToplevelData) (role : RoleAttrs)
    (output : Option OutputHandle) (focus : Bool)
    (h3 : d.states = to_state_vec role.maximized role.fullscreen focus) :
    ∀ fl, TmEvent.stateFlags fl ∉ (refresh_toplevel d role output focus).1.2 := by
  intro fl
  by_cases h1 : d.title = role.title <;>
    by_cases h2 : d.app_id = role.app_id <;>
    by_cases h4 : d.output = output <;>
    cases output <;> cases hrt : role.title <;> cases hra : role.app_id <;>
    simp_all [refresh_toplevel]

theorem rt_states_changed (d : ToplevelData) (role : RoleAttrs)
    (output : Option OutputHandle) (focus : Bool)
    (h3 : d.states ≠ to_state_vec role.maximized role.fullscreen focus) :
    TmEvent.stateFlags (to_state_vec role.maximized role.fullscreen focus) ∈
      (refresh_toplevel d role output focus).1.2 := by
  by_cases h1 : d.title = role.title <;>
    by_cases h2 : d.app_id = role.app_id <;>
    cases hrt : role.title <;> cases hra : role.app_id <;>
    simp_all [refresh_toplevel]

theorem rt_output_unchanged (d : ToplevelData) (role : RoleAttrs)
    (output : Option OutputHandle) (focus : Bool)
    (h4 : d.output = output) :
    (∀ o, TmEvent.outputLeave o ∉ (refresh_toplevel d role output focus).1.2) ∧
    (∀ o, TmEvent.outputEnter o ∉ (refresh_toplevel d role output focus).1.2) := by
  constructor <;> intro o <;>
    by_cases h1 : d.title = role.title <;>
      by_cases h2 : d.app_id = role.app_id <;>
      by_cases h3 : d.states = to_state_vec role.maximized role.fullscreen focus <;>
      cases hrt : role.title <;> cases hra : role.app_id <;>
      simp_all [refresh_toplevel]

theorem rt_x11_occupied (d : ToplevelData) (title app_id : Option String)
    (maxi mini fs : Bool) (output : Option OutputHandle) (focus : Bool)
    (res : ToplevelData × List TmEvent)
    (hres : refresh_toplevel_x11 d title app_id maxi mini fs output focus = some res) :
    res.1.title = d.title ∧
    (∀ t, TmEvent.title t ∉ res.2) ∧
    (∀ a, TmEvent.appId a ∉ res.2) ∧
    (∀ fl, TmEvent.stateFlags fl ∈ res.2 → fl = []) := by
  rw [refresh_toplevel_x11.eq_def] at hres
  by_cases hover : (x11_states0 maxi mini focus fs).length > 3
  · rw [if_pos hover] at hres
    exact absurd hres (by simp)
  · rw [if_neg hover] at hres
    obtain rfl := Option.some.inj hres
    refine ⟨?_, ?_, ?_, ?_⟩ <;>
      by_cases hs : d.states = ([] : List ℕ) <;>
      by_cases ho : d.output = output <;>
      cases output <;>
      simp_all

/-- C7 (amended): for Wayland toplevels, a state-change pass on a
tracked toplevel sends exactly the changed fields — title, app-id,
state-flag list, output leave/enter — and closes every non-empty batch
with a `done` marker; for X11 toplevels only the state list (always
published as empty) and the output are diffed, while a changed title is
neither stored nor sent and the app-id is not diffed at all. -/
theorem toplevel_diff_protocol (d : ToplevelData) (role : RoleAttrs)
    (output : Option OutputHandle) (focus : Bool)
    (xtitle xapp : Option String) (maxi mini fs : Bool) :
    (d.title = role.title → d.app_id = role.app_id →
      d.states = to_state_vec role.maximized role.fullscreen focus →
      d.output = output →
      (refresh_toplevel d role output focus).1.2 = []) ∧
    ((refresh_toplevel d role output focus).1.2 ≠ [] →
      (refresh_toplevel d role output focus).1.2.getLast? = some .done) ∧
    (d.title = role.title →
      ∀ t, TmEvent.title t ∉ (refresh_toplevel d role output focus).1.2) ∧
    (∀ t, role.title = some t → d.title ≠ role.title →
      TmEvent.title t ∈ (refresh_toplevel d role output focus).1.2) ∧
    (d.app_id = role.app_id →
      ∀ a, TmEvent.appId a ∉ (refresh_toplevel d role output focus).1.2) ∧
    (∀ a, role.app_id = some a → d.app_id ≠ role.app_id →
      TmEvent.appId a ∈ (refresh_toplevel d role output focus).1.2) ∧
    (d.states = to_state_vec role.maximized role.fullscreen focus →
      ∀ fl, TmEvent.stateFlags fl ∉ (refresh_toplevel d role output focus).1.2) ∧
    (d.states ≠ to_state_vec role.maximized role.fullscreen focus →
      TmEvent.stateFlags (to_state_vec role.maximized role.fullscreen focus) ∈
        (refresh_toplevel d role output focus).1.2) ∧
    (d.output = output →
      (∀ o, TmEvent.outputLeave o ∉ (refresh_toplevel d role output focus).1.2) ∧
      (∀ o, TmEvent.outputEnter o ∉ (refresh_toplevel d role output focus).1.2)) ∧
    (∀ res, refresh_toplevel_x11 d xtitle xapp maxi mini fs output focus = some res →
      res.1.title = d.title ∧
      (∀ t, TmEvent.title t ∉ res.2) ∧
      (∀ a, TmEvent.appId a ∉ res.2) ∧
      (∀ fl, TmEvent.stateFlags fl ∈ res.2 → fl = [])) :=
  ⟨fun h1 h2 h3 h4 => rt_events_nil d role output focus h1 h2 h3 h4,
   fun hne => rt_done_last d role output focus hne,
   fun h1 => rt_title_unchanged d role output focus h1,
   fun t ht hne => rt_title_changed d role output focus t ht hne,
   fun h2 => rt_app_id_unchanged d role output focus h2,
   fun a ha hne => rt_app_id_changed d role output focus a ha hne,
   fun h3 => rt_states_unchanged d role output focus h3,
   fun h3 => rt_states_changed d role output focus h3,
   fun h4 => rt_output_unchanged d role output focus h4,
   fun res hres => rt_x11_occupied d xtitle xapp maxi mini fs output focus res hres⟩

/-- C7 counterexample: an X11 toplevel whose only change is its title
(from "old" to "new") produces no event at all — the title delta the
claim promises for X11 toplevels is never sent, and the stored snapshot
keeps the stale title. -/
theorem x11_title_change_not_sent :
    refresh_toplevel_x11 ⟨some "old", none, [], none, []⟩ (some "new") none
      false false false none false =
      some (⟨some "old", none, [], none, []⟩, []) := by
  decide

/-- C7 witness: a Wayland toplevel whose title changed from "a" to "b"
gets exactly the title delta (closed by done); the same toplevel with
nothing changed gets no events. -/
theorem toplevel_diff_protocol_witness :
    TmEvent.title "b" ∈
      (refresh_toplevel ⟨some "a", none, [], none, []⟩
        ⟨some "b", none, false, false⟩ none false).1.2 ∧
    (refresh_toplevel ⟨some "a", none, [], none, []⟩
        ⟨some "a", none, false, false⟩ none false).1.2 = [] := by
  have h1 := toplevel_diff_protocol ⟨some "a", none, [], none, []⟩
    ⟨some "b", none, false, false⟩ none false none none false false false
  have h2 := toplevel_diff_protocol ⟨some "a", none, [], none, []⟩
    ⟨some "a", none, false, false⟩ none false none none false false false
  exact ⟨h1.2.2.2.1 "b" rfl (by decide), h2.1 rfl rfl (by decide) rfl⟩

/-! ### Output render-element composition (`src/render.rs`) -/

/-- Integer rectangle (`Rectangle<i32, Logical>`). -/
structure IRect where
  x : ℤ
  y : ℤ
  w : ℤ
  h : ℤ
  deriving DecidableEq, Repr

/-- A render element of the composed output list: custom elements
(pointer, surfaces, fps counter), layer-shell surface elements, the
constrained (fit-scaled, centered) window elements, and solid color
boxes. -/
inductive RenderEl
  | custom (i : ℕ)
  | layerSurface (id : ℕ)
  | preview (window : ℕ) (loc : ℤ × ℤ) (constrain : IRect)
  | solidBox (loc : ℤ × ℤ) (size : ℤ × ℤ)
  deriving DecidableEq, Repr

/-- The external smithay helper `constrain_space_element` (called with
`ConstrainScaleBehavior::Fit`, `ConstrainAlign::CENTER`, reference
bounding box): abstracted as the single fit-scaled element it produces
for one window, recording the location and constraint rectangle. -/
def constrain_space_element (window : ℕ) (loc : ℤ × ℤ) (constrain : IRect) :
    List RenderEl :=
  [.preview window loc constrain]

/-- Embeds `space_one_app_elements`: `space.elements().nth_back(0)` is
the topmost window; it is constrained to the full output size at the
origin; an empty stack yields `None`. -/
def space_one_app_elements (elements : List ℕ) (output_size : ℤ × ℤ) :
    Option (List RenderEl) :=
  let preview_location : ℤ × ℤ := (0, 0)
  let constrain : IRect := ⟨0, 0, output_size.1, output_size.2⟩
  match elements.getLast? with
  | some window => some (constrain_space_element window preview_location constrain)
  | none => none

/-- Embeds `space_menu_elements`: the stack is enumerated from the top
(`elements().rev()`), window `i` is constrained into a 128×128 box at
`(128, i * 148)`. -/
def space_menu_elements (elements : List ℕ) : List RenderEl :=
  (elements.reverse.enum).flatMap (fun p =>
    constrain_space_element p.2 ((128 : ℤ), (p.1 : ℤ) * 148)
      ⟨128, (p.1 : ℤ) * 148, 128, 128⟩)

/-- A layer-shell surface of the output's layer map: 0 = background,
1 = bottom, 2 = top, 3 = overlay. -/
structure LayerSurfaceM where
  id : ℕ
  layer : ℕ
  deriving DecidableEq, Repr

/-- Embeds `output_elements`: custom elements first, then the overlay
and top layer-shell surfaces, then — depending on the menu selection —
either the menu thumbnails (the selection highlight box is built in the
source but the line extending the element list with it is commented
out) or the single top window, and the bottom and background layers
last.  `space.elements()` is bottom-to-top; the element list is ordered
front-to-back for the damage tracker. -/
def output_elements (custom : List ℕ) (layer_map : List LayerSurfaceM)
    (elements : List ℕ) (output_size : ℤ × ℤ)
    (menu_window_selection : Option ℕ) : List RenderEl :=
  let re1 : List RenderEl := custom.map RenderEl.custom
  let parts := (layer_map.reverse).partition (fun s => s.layer = 0 || s.layer = 1)
  let lower := parts.1
  let upper := parts.2
  let re2 := re1 ++ upper.map (fun s => RenderEl.layerSurface s.id)
  let re3 := re2 ++
    (match menu_window_selection with
     | some _sel => space_menu_elements elements
     | none => (space_one_app_elements elements output_size).getD [])
  re3 ++ lower.map (fun s => RenderEl.layerSurface s.id)

/-- The constrained window elements of a composed list, in order. -/
def previewsOf (l : List RenderEl) : List (ℕ × (ℤ × ℤ) × IRect) :=
  l.filterMap (fun e =>
    match e with
    | .preview w loc c => some (w, loc, c)
    | _ => none)

theorem previewsOf_append (l₁ l₂ : List RenderEl) :
    previewsOf (l₁ ++ l₂) = previewsOf l₁ ++ previewsOf l₂ :=
  List.filterMap_append l₁ l₂ _

theorem previewsOf_nil : previewsOf [] = [] := rfl

theorem previewsOf_single_preview (w : ℕ) (loc : ℤ × ℤ) (c : IRect) :
    previewsOf [RenderEl.preview w loc c] = [(w, loc, c)] := rfl

theorem previewsOf_cons_preview (w : ℕ) (loc : ℤ × ℤ) (c : IRect)
    (rest : List RenderEl) :
    previewsOf (RenderEl.preview w loc c :: rest) = (w, loc, c) :: previewsOf rest := by
  simp [previewsOf, List.filterMap_cons]

theorem previewsOf_reverse (l : List RenderEl) :
    previewsOf l.reverse = (previewsOf l).reverse :=
  List.filterMap_reverse _ l

theorem previewsOf_customs (l : List ℕ) :
    previewsOf (l.map RenderEl.custom) = [] := by
  rw [previewsOf, List.filterMap_map]
  exact List.filterMap_eq_nil_iff.mpr (fun a _ => rfl)

theorem previewsOf_layers (l : List LayerSurfaceM) :
    previewsOf (l.map (fun s => RenderEl.layerSurface s.id)) = [] := by
  rw [previewsOf, List.filterMap_map]
  exact List.filterMap_eq_nil_iff.mpr (fun a _ => rfl)

theorem previewsOf_menu (elements : List ℕ) :
    previewsOf (space_menu_elements elements) =
      (elements.reverse.enum).map (fun p =>
        (p.2, ((128 : ℤ), (p.1 : ℤ) * 148),
          (⟨128, (p.1 : ℤ) * 148, 128, 128⟩ : IRect))) := by
  unfold space_menu_elements
  induction elements.reverse.enum with
  | nil => rfl
  | cons a l ih =>
    simpa [previewsOf, constrain_space_element, List.filterMap_cons] using ih

/-- C8 (amended): in menu mode the composed draw list contains exactly
one 128×128 fit-constrained thumbnail per window of the stack, in
top-to-bottom order at `(128, i * 148)`, and no solid highlight box
(the box is built but never added to the list); in single-window mode
the only constrained window element is the topmost window fit to the
whole output, and an empty stack contributes no window element. -/
theorem menu_and_single_draw_lists (custom : List ℕ)
    (layer_map : List LayerSurfaceM) (elements : List ℕ)
    (output_size : ℤ × ℤ) (sel : ℕ) :
    previewsOf (output_elements custom layer_map elements output_size (some sel)) =
      (elements.reverse.enum).map (fun p =>
        (p.2, ((128 : ℤ), (p.1 : ℤ) * 148),
          (⟨128, (p.1 : ℤ) * 148, 128, 128⟩ : IRect))) ∧
    (∀ loc size, RenderEl.solidBox loc size ∉
      output_elements custom layer_map elements output_size (some sel)) ∧
    previewsOf (output_elements custom layer_map elements output_size none) =
      (match elements.getLast? with
       | some w => [(w, ((0 : ℤ), (0 : ℤ)),
           (⟨0, 0, output_size.1, output_size.2⟩ : IRect))]
       | none => []) := by
  refine ⟨?_, ?_, ?_⟩
  · simp only [output_elements, previewsOf_append, previewsOf_customs,
      previewsOf_layers, previewsOf_menu]
    simp
  · intro loc size
    simp only [output_elements, List.mem_append]
    push_neg
    refine ⟨⟨⟨?_, ?_⟩, ?_⟩, ?_⟩
    · simp [List.mem_map]
    · simp [List.mem_map]
    · simp [space_menu_elements, List.mem_flatMap, constrain_space_element]
    · simp [List.mem_map]
  · cases helem : elements.getLast? with
    | none =>
      simp [output_elements, space_one_app_elements, helem, previewsOf_append,
        previewsOf_customs, previewsOf_layers, previewsOf_reverse, previewsOf_nil]
    | some w =>
      simp [output_elements, space_one_app_elements, helem, previewsOf_append,
        previewsOf_customs, previewsOf_layers, previewsOf_reverse,
        constrain_space_element, previewsOf_single_preview, previewsOf_nil,
        previewsOf_cons_preview]

/-- C8 counterexample: menu mode with one window and selection at index
0: the composed draw list is the single thumbnail, with no highlight box
element, although the claim promises one at the selected index. -/
theorem menu_highlight_box_missing :
    output_elements [] [] [5] (1920, 1080) (some 0) =
      [.preview 5 (128, 0) ⟨128, 0, 128, 128⟩] := by
  decide

/-- C8 witness: stack `[5, 6]` (6 topmost): menu mode lists thumbnails
for 6 then 5 at rows 0 and 148; single mode lists only window 6 fit to
the 1920×1080 output. -/
theorem menu_and_single_draw_lists_witness :
    previewsOf (output_elements [0] [⟨7, 3⟩] [5, 6] (1920, 1080) (some 1)) =
      [(6, (128, 0), ⟨128, 0, 128, 128⟩), (5, (128, 148), ⟨128, 148, 128, 128⟩)] ∧
    previewsOf (output_elements [0] [⟨7, 3⟩] [5, 6] (1920, 1080) none) =
      [(6, (0, 0), ⟨0, 0, 1920, 1080⟩)] := by
  have h := menu_and_single_draw_lists [0] [⟨7, 3⟩] [5, 6] (1920, 1080) 1
  refine ⟨?_, ?_⟩
  · rw [h.1]
    decide
  · rw [h.2.2]
    decide

end Consolation
